import Mathlib

/-! movable_lambda: callable wrappers over copyable and move-only closures.

A shallow embedding of `code.cc`.  A C++ statement is a function from the
observable world (the characters written to `std::cout` and the `int` objects
created by `std::make_shared` / `std::make_unique`) to a new world, or to
`none` when the statement has undefined behaviour (dereferencing a null smart
pointer).  Objects are values; a move construction returns the new object
together with the state it leaves in its source.  The templates take their
argument as `F&&` with `F` deduced, so `F` is the closure type `L` for an
rvalue argument and the reference type `L const&` for a `const` lvalue.
-/

namespace MovableLambda

universe u

/-! ## The observable world and the statement monad -/

/-- Address of an `int` object on the free store: its index in `World.heap`. -/
abbrev Addr := Nat

/-- Observable state: `out` is everything written to `std::cout` so far, `heap`
holds the `int` objects created so far, each at the address equal to its index. -/
structure World where
  out : String
  heap : List Int
  deriving DecidableEq

/-- A C++ computation yielding an `α`: it maps the world to the result and the
new world, `none` standing for undefined behaviour. -/
def Cpp (α : Type u) : Type u := World → Option (α × World)

/-- Sequencing of two computations (`a; b`). -/
def Cpp.bind {α β : Type u} (x : Cpp α) (f : α → Cpp β) : Cpp β :=
  fun w => match x w with
    | none => none
    | some (a, w') => f a w'

instance : Monad Cpp.{u} where
  pure a := fun w => some (a, w)
  bind := Cpp.bind

/-- The world a computation leaves behind, its result value dropped. -/
def Cpp.effect {α : Type u} (x : Cpp α) (w : World) : Option World :=
  (x w).map Prod.snd

/-- An expression statement `e;`: run `e` and discard its value. -/
def Cpp.stmt {α : Type u} (x : Cpp α) : Cpp Unit :=
  fun w => (x w).map (fun r => ((), r.2))

/-- Undefined behaviour. -/
def Cpp.undefined {α : Type u} : Cpp α := fun _ => none

/-- Models `std::cout << s` for a string or an already formatted value. -/
def cout (s : String) : Cpp Unit :=
  fun w => some ((), { w with out := w.out ++ s })

/-- Models `std::cout << std::endl`: a newline (the flush is not observable). -/
def endl : Cpp Unit := cout "\n"

/-- Creates a new `int` object holding `v`; its address is the next free index. -/
def alloc (v : Int) : Cpp Addr :=
  fun w => some (w.heap.length, { w with heap := w.heap ++ [v] })

/-- Reads the `int` object at address `a`; undefined when there is none. -/
def load (a : Addr) : Cpp Int :=
  fun w => match w.heap[a]? with
    | none => none
    | some v => some (v, w)

/-! ## Smart pointers -/

/-- Models `std::shared_ptr<int>`: null or the address of the shared object. -/
structure SharedPtr where
  ptr : Option Addr
  deriving DecidableEq

/-- Models `std::make_shared<int>(v)`. -/
def make_shared (v : Int) : Cpp SharedPtr := do
  let a ← alloc v
  pure ⟨some a⟩

/-- Models `*s` on a `std::shared_ptr<int>`. -/
def SharedPtr.deref (s : SharedPtr) : Cpp Int :=
  match s.ptr with
  | none => Cpp.undefined
  | some a => load a

/-- Models `std::unique_ptr<int>`: null or the address of the owned object.
There is no copy operation. -/
structure UniquePtr where
  ptr : Option Addr
  deriving DecidableEq

/-- Models `std::make_unique<int>(v)`. -/
def make_unique (v : Int) : Cpp UniquePtr := do
  let a ← alloc v
  pure ⟨some a⟩

/-- Models `*w` on a `std::unique_ptr<int>`. -/
def UniquePtr.deref (p : UniquePtr) : Cpp Int :=
  match p.ptr with
  | none => Cpp.undefined
  | some a => load a

/-- Move construction from `std::move(p)`: the new pointer takes the address
and the source is left null.  Returns `(new, source afterwards)`. -/
def UniquePtr.move (p : UniquePtr) : UniquePtr × UniquePtr :=
  (⟨p.ptr⟩, ⟨none⟩)

/-- The objects a `std::unique_ptr<int>` owns: its target when it is not null. -/
def UniquePtr.owned (p : UniquePtr) : List Addr := p.ptr.toList

/-! ## Callable types -/

/-- A type `F` usable as the `F` of the templates in `code.cc`: a closure type
`L`, or the reference type `L const&` (see `ConstRef`).
* `call` is `void operator()() const`;
* `isReference` tells whether `F` is a reference type, so that a member
  `F const f_` is a reference and initialising it runs no constructor;
* `movedFrom f` is the state an object with value `f` is left in after it was
  the source of a move construction `F(std::move(f))`; the object constructed
  has the value `f` (a closure type moves member by member);
* `reaches f` lists the `int` objects that can be reached from `f` through
  `std::unique_ptr` members, its own or those of the object it refers to (used
  only to state who holds what). -/
class Callable (F : Type) where
  call : F → Cpp Unit
  isReference : Bool
  movedFrom : F → F
  reaches : F → List Addr

/-- Marks the class types that have a copy constructor, as `std::function`
requires of its target.  A copy of a closure has the same captured values. -/
class CopyConstructible (F : Type) where
  intro ::

/-- Closure type of `[]() { std::cout << text << std::endl; }` (no captures). -/
structure PrintLambda (text : String) where
  intro ::
  deriving DecidableEq

instance (text : String) : Callable (PrintLambda text) where
  call _ := do
    cout text
    endl
  isReference := false
  movedFrom f := f
  reaches _ := []

instance (text : String) : CopyConstructible (PrintLambda text) := ⟨⟩

/-- Closure type of `[s = s1]() { std::cout << text << *s << std::endl; }`: it
captures a copy of a `std::shared_ptr<int>`. -/
structure SharedLambda (text : String) where
  s : SharedPtr
  deriving DecidableEq

instance (text : String) : Callable (SharedLambda text) where
  call f := do
    cout text
    let v ← f.s.deref
    cout (toString v)
    endl
  isReference := false
  movedFrom _ := ⟨⟨none⟩⟩
  reaches _ := []

instance (text : String) : CopyConstructible (SharedLambda text) := ⟨⟩

/-- Closure type of `[w = std::move(u)] { std::cout << text << *w << std::endl; }`:
it captures a `std::unique_ptr<int>` by move, so it has no copy constructor. -/
structure UniqueLambda (text : String) where
  w : UniquePtr
  deriving DecidableEq

instance (text : String) : Callable (UniqueLambda text) where
  call f := do
    cout text
    let v ← f.w.deref
    cout (toString v)
    endl
  isReference := false
  movedFrom f := ⟨(f.w.move).2⟩
  reaches f := f.w.owned

/-- Models the reference type `L const&`, which is what `F` is deduced to when
a `const` lvalue of closure type `L` is passed to `Wrap` or
`ProductionGradeWrap`.  A reference is modelled by the value of the object it
is bound to, `target`. -/
structure ConstRef (L : Type) where
  target : L

instance (L : Type) [Callable L] : Callable (ConstRef L) where
  call r := Callable.call r.target
  isReference := true
  movedFrom r := r
  reaches r := Callable.reaches r.target

/-! ## `std::function<void()>` and the two wrappers built on it -/

/-- Models an engaged `std::function<void()>`: the call operator of its target. -/
structure StdFunction where
  target : Cpp Unit

/-- Converting constructor `std::function<void()>(f)`; needs a copyable `F`. -/
def StdFunction.ofCallable {F : Type} [Callable F] [CopyConstructible F] (f : F) : StdFunction :=
  ⟨Callable.call f⟩

/-- Models `f()` on a `std::function<void()>`. -/
def StdFunction.invoke (f : StdFunction) : Cpp Unit := f.target

/-- Models `struct KeepsLambdaByCopy`. -/
structure KeepsLambdaByCopy where
  f_ : StdFunction

/-- Constructor `KeepsLambdaByCopy(std::function<void()> const f) : f_(f)`. -/
def KeepsLambdaByCopy.ctor (f : StdFunction) : KeepsLambdaByCopy := ⟨f⟩

/-- Models `void KeepsLambdaByCopy::Call() const`. -/
def KeepsLambdaByCopy.Call (self : KeepsLambdaByCopy) : Cpp Unit :=
  self.f_.invoke

/-- Models `struct KeepsLambdaByMove`. -/
structure KeepsLambdaByMove where
  f_ : StdFunction

/-- Constructor `KeepsLambdaByMove(std::function<void()> f) : f_(std::move(f))`;
the source is the by-value parameter, which dies with the constructor call. -/
def KeepsLambdaByMove.ctor (f : StdFunction) : KeepsLambdaByMove := ⟨f⟩

/-- Models `void KeepsLambdaByMove::Call() const`. -/
def KeepsLambdaByMove.Call (self : KeepsLambdaByMove) : Cpp Unit :=
  self.f_.invoke

/-! ## The generic wrapper -/

/-- Models `template <class F> struct KeepsGenericFunctionByMove`. -/
structure KeepsGenericFunctionByMove (F : Type) where
  f_ : F

/-- Constructor `KeepsGenericFunctionByMove(F&& f) : f_(std::move(f))`: returns
the object built and the state left in the argument.  When `F` is a closure
type, `f_` is move-constructed and the argument is left moved-from; when `F`
is `L const&`, `f_` is a reference bound to the argument, which stays as it
was. -/
def KeepsGenericFunctionByMove.ctor {F : Type} [Callable F] (f : F) :
    KeepsGenericFunctionByMove F × F :=
  (⟨f⟩, if Callable.isReference (F := F) then f else Callable.movedFrom f)

/-- Models `void KeepsGenericFunctionByMove<F>::Call() const`. -/
def KeepsGenericFunctionByMove.Call {F : Type} [Callable F]
    (self : KeepsGenericFunctionByMove F) : Cpp Unit :=
  Callable.call self.f_

/-- Models `template <class F> KeepsGenericFunctionByMove<F> Wrap(F&& f)`, which
passes `std::move(f)` on to the constructor: returns the box and the state left
in the argument (moved-from for a closure type `F`, untouched for
`F = L const&`). -/
def Wrap {F : Type} [Callable F] (f : F) : KeepsGenericFunctionByMove F × F :=
  KeepsGenericFunctionByMove.ctor f

/-! ## The production-grade wrapper -/

/-- Models `template <class F> struct ProductionGradeCallableImpl`. -/
structure ProductionGradeCallableImpl (F : Type) where
  f_ : F

/-- Constructor `ProductionGradeCallableImpl(F&& f) : f_(std::move(f))`: returns
the object built and the state left in the argument.  When `F` is a closure
type, `f_` is move-constructed and the argument is left moved-from; when `F`
is `L const&`, `f_` is a reference bound to the argument, which stays as it
was. -/
def ProductionGradeCallableImpl.ctor {F : Type} [Callable F] (f : F) :
    ProductionGradeCallableImpl F × F :=
  (⟨f⟩, if Callable.isReference (F := F) then f else Callable.movedFrom f)

/-- Models `virtual void DoCall()` of the implementation.  The method is not
`const`, so it returns the object as it is after the call. -/
def ProductionGradeCallableImpl.DoCall {F : Type} [Callable F]
    (self : ProductionGradeCallableImpl F) : Cpp (ProductionGradeCallableImpl F) := do
  Callable.call self.f_
  pure self

/-- Models an object seen through `ProductionGradeCallable`: its dynamic type is
`ProductionGradeCallableImpl<F>` for some `F`, whose call operator plays the
part of the virtual table. -/
structure ProductionGradeCallable where
  F : Type
  vtable : Callable F
  impl : ProductionGradeCallableImpl F

/-- Virtual dispatch of `DoCall()`. -/
def ProductionGradeCallable.DoCall (p : ProductionGradeCallable) : Cpp ProductionGradeCallable :=
  fun w => match @ProductionGradeCallableImpl.DoCall p.F p.vtable p.impl w with
    | none => none
    | some (i, w') => some (⟨p.F, p.vtable, i⟩, w')

/-- Models `struct ProductionGradeFunction`; the never-null, never-shared
`std::unique_ptr<ProductionGradeCallable> const f_` is modelled by its pointee. -/
structure ProductionGradeFunction where
  f_ : ProductionGradeCallable

/-- Constructor `ProductionGradeFunction(std::unique_ptr<ProductionGradeCallable> f)`. -/
def ProductionGradeFunction.ctor (f : ProductionGradeCallable) : ProductionGradeFunction := ⟨f⟩

/-- Models `void ProductionGradeFunction::Call() const`, i.e. `f_->DoCall()`;
returns the box as it is after the call. -/
def ProductionGradeFunction.Call (self : ProductionGradeFunction) : Cpp ProductionGradeFunction := do
  let p ← self.f_.DoCall
  pure ⟨p⟩

/-- Models `template <class F> ProductionGradeFunction ProductionGradeWrap(F&& f)`,
which passes `std::move(f)` on to the implementation's constructor: returns the
box and the state left in the argument (moved-from for a closure type `F`,
untouched for `F = L const&`). -/
def ProductionGradeWrap {F : Type} [Callable F] (f : F) : ProductionGradeFunction × F :=
  let r := ProductionGradeCallableImpl.ctor f
  (ProductionGradeFunction.ctor ⟨F, inferInstance, r.1⟩, r.2)

/-- The objects that can be reached from a box through what it stores. -/
def ProductionGradeFunction.reaches (b : ProductionGradeFunction) : List Addr :=
  @Callable.reaches b.f_.F b.f_.vtable b.f_.impl.f_

/-! ## The demonstration program -/

/-- Lines 72–77 of `main`: two capture-less lambdas kept by copy. -/
def plainBlock (textA textB : String) : Cpp Unit := do
  let t1 := KeepsLambdaByCopy.ctor (StdFunction.ofCallable (PrintLambda.intro : PrintLambda textA))
  let t2 := KeepsLambdaByCopy.ctor (StdFunction.ofCallable (PrintLambda.intro : PrintLambda textB))
  t1.Call
  t2.Call

/-- Lines 78–84 and 85–91 of `main`: two lambdas capturing one shared `int`. -/
def sharedBlock (text1 text2 : String) (v : Int) : Cpp Unit := do
  let s1 ← make_shared v
  let t1 := KeepsLambdaByCopy.ctor (StdFunction.ofCallable (⟨s1⟩ : SharedLambda text1))
  let t2 := KeepsLambdaByCopy.ctor (StdFunction.ofCallable (⟨s1⟩ : SharedLambda text2))
  t1.Call
  t2.Call

/-- Lines 92–111 of `main`: a lambda owning a `std::unique_ptr<int>` is called
directly, then moved into `Wrap` and called through the box. -/
def uniqueWrapBlock (text : String) (v : Int) : Cpp Unit := do
  let u ← make_unique v
  let (w, _u) := u.move
  let f : UniqueLambda text := ⟨w⟩
  Callable.call f
  let (t3, _f) := Wrap f
  t3.Call

/-- Lines 112–117 of `main`: the same kind of lambda, a temporary, goes through
`ProductionGradeWrap`. -/
def uniqueProductionBlock (text : String) (v : Int) : Cpp Unit := do
  let u2 ← make_unique v
  let (w2, _u2) := u2.move
  let (t4, _tmp) := ProductionGradeWrap (⟨w2⟩ : UniqueLambda text)
  Cpp.stmt t4.Call

/-- Models `int main()`; falling off the end returns `0`. -/
def main : Cpp Int := do
  plainBlock "A" "B"
  sharedBlock "C=" "D=" 1
  sharedBlock "E=" "F=" 2
  uniqueWrapBlock "G=" 3
  uniqueProductionBlock "H=" 4
  pure 0

/-! ## Client loops used to state the repeated-call properties -/

/-- Calls `Call()` on the box `n` times in succession; returns the box as it is
after the last call. -/
def callTimes : Nat → ProductionGradeFunction → Cpp ProductionGradeFunction
  | 0, b => pure b
  | n + 1, b => do
    let b' ← b.Call
    callTimes n b'

/-- Invokes `f()` directly `n` times in succession. -/
def invokeTimes {F : Type} [Callable F] (f : F) : Nat → Cpp Unit
  | 0 => pure ()
  | n + 1 => do
    Callable.call f
    invokeTimes f n

/-- Runs `g()` and then `f()` directly. -/
def invokeInOrder {G F : Type} [Callable G] [Callable F] (g : G) (f : F) : Cpp Unit := do
  Callable.call g
  Callable.call f

/-- The text made of `n` copies of `line`. -/
def repeatText (line : String) : Nat → String
  | 0 => ""
  | n + 1 => line ++ repeatText line n

/-! ## Snapshots of who holds the `int` object -/

/-- Who can reach which `int` object at one program point of a
`std::unique_ptr` block: the objects reached from the `std::unique_ptr<int>`
local, from the closure (the variable `f`, or the temporary lambda), and from
the box, together with the `int` objects existing at that point. -/
structure Owners where
  u : List Addr
  f : List Addr
  box : List Addr
  heap : List Int
  deriving DecidableEq

/-- Number of variables of a snapshot from which the object at `a` is reached. -/
def Owners.count (o : Owners) (a : Addr) : Nat :=
  (o.u ++ o.f ++ o.box).count a

/-- Takes a snapshot; the world is left untouched. -/
def observe (u f box : List Addr) : Cpp Owners :=
  fun w => some (⟨u, f, box, w.heap⟩, w)

/-- The statements of `uniqueWrapBlock` with a snapshot after each of them:
after `make_unique`, after the closure is built, after `f()`, after `Wrap`,
after `t3.Call()`. -/
def uniqueWrapTrace (text : String) (v : Int) : Cpp (List Owners) := do
  let u ← make_unique v
  let o1 ← observe u.owned [] []
  let (w, u) := u.move
  let f : UniqueLambda text := ⟨w⟩
  let o2 ← observe u.owned (Callable.reaches f) []
  Callable.call f
  let o3 ← observe u.owned (Callable.reaches f) []
  let (t3, f) := Wrap f
  let o4 ← observe u.owned (Callable.reaches f) (Callable.reaches t3.f_)
  t3.Call
  let o5 ← observe u.owned (Callable.reaches f) (Callable.reaches t3.f_)
  pure [o1, o2, o3, o4, o5]

/-- The statements of `uniqueProductionBlock` with a snapshot after each step:
after `make_unique`, after the temporary closure is built, after
`ProductionGradeWrap`, after `t4.Call()`. -/
def uniqueProductionTrace (text : String) (v : Int) : Cpp (List Owners) := do
  let u2 ← make_unique v
  let o1 ← observe u2.owned [] []
  let (w2, u2) := u2.move
  let tmp : UniqueLambda text := ⟨w2⟩
  let o2 ← observe u2.owned (Callable.reaches tmp) []
  let (t4, tmp) := ProductionGradeWrap tmp
  let o3 ← observe u2.owned (Callable.reaches tmp) t4.reaches
  fun w => match t4.Call w with
    | none => none
    | some (t4, w') =>
      (do let o4 ← observe u2.owned (Callable.reaches tmp) t4.reaches
          pure [o1, o2, o3, o4] : Cpp (List Owners)) w'

/-- A client block that passes the closure as a `const` lvalue:
`auto u = std::make_unique<int>(v);`
`auto const f = [w = std::move(u)] { std::cout << text << *w << std::endl; };`
`auto t3 = Wrap(f); t3.Call(); f();`
Here `F` is deduced as `L const&`.  Snapshots after `make_unique`, after the
closure is built, after `Wrap`, and after the two calls. -/
def constLvalueWrapTrace (text : String) (v : Int) : Cpp (List Owners) := do
  let u ← make_unique v
  let o1 ← observe u.owned [] []
  let (w, u) := u.move
  let f : UniqueLambda text := ⟨w⟩
  let o2 ← observe u.owned (Callable.reaches f) []
  let (t3, r) := Wrap (⟨f⟩ : ConstRef (UniqueLambda text))
  let f := r.target
  let o3 ← observe u.owned (Callable.reaches f) (Callable.reaches t3.f_)
  t3.Call
  Callable.call f
  let o4 ← observe u.owned (Callable.reaches f) (Callable.reaches t3.f_)
  pure [o1, o2, o3, o4]

/-- The same client block with
`ProductionGradeFunction t4 = ProductionGradeWrap(f); t4.Call(); f();`
for the `const` lvalue `f`. -/
def constLvalueProductionTrace (text : String) (v : Int) : Cpp (List Owners) := do
  let u ← make_unique v
  let o1 ← observe u.owned [] []
  let (w, u) := u.move
  let f : UniqueLambda text := ⟨w⟩
  let o2 ← observe u.owned (Callable.reaches f) []
  let (t4, r) := ProductionGradeWrap (⟨f⟩ : ConstRef (UniqueLambda text))
  let f := r.target
  let o3 ← observe u.owned (Callable.reaches f) t4.reaches
  fun w0 => match t4.Call w0 with
    | none => none
    | some (t4, w') =>
      (do Callable.call f
          let o4 ← observe u.owned (Callable.reaches f) t4.reaches
          pure [o1, o2, o3, o4] : Cpp (List Owners)) w'

/-! ## Basic facts about the statement monad -/

@[simp] theorem Cpp.bind_apply {α β : Type u} (x : Cpp α) (f : α → Cpp β) (w : World) :
    (x >>= f) w = match x w with
      | none => none
      | some (a, w') => f a w' := rfl

@[simp] theorem Cpp.pure_apply {α : Type u} (a : α) (w : World) :
    (pure a : Cpp α) w = some (a, w) := rfl

theorem Cpp.effect_bind {α β : Type u} (x : Cpp α) (f : α → Cpp β) (w : World) :
    (x >>= f).effect w = match x w with
      | none => none
      | some (a, w') => (f a).effect w' := by
  unfold Cpp.effect
  simp only [Cpp.bind_apply]
  cases x w <;> rfl

/-- Calling a production-grade box runs the stored callable and hands the box
back as it was. -/
theorem ProductionGradeFunction.Call_apply (b : ProductionGradeFunction) (w : World) :
    b.Call w = (@Callable.call b.f_.F b.f_.vtable b.f_.impl.f_ w).map (fun r => (b, r.2)) := by
  simp only [ProductionGradeFunction.Call, ProductionGradeCallable.DoCall,
    ProductionGradeCallableImpl.DoCall, Cpp.bind_apply, Cpp.pure_apply]
  cases @Callable.call b.f_.F b.f_.vtable b.f_.impl.f_ w <;> rfl

/-- The callable stored by `ProductionGradeWrap f` is `f`. -/
theorem ProductionGradeWrap_Call_apply {F : Type} [Callable F] (f : F) (w : World) :
    (ProductionGradeWrap f).1.Call w
      = (Callable.call f w).map (fun r => ((ProductionGradeWrap f).1, r.2)) := by
  rw [ProductionGradeFunction.Call_apply]
  rfl

theorem callTimes_apply {F : Type} [Callable F] (f : F) (n : Nat) (w : World) :
    callTimes n (ProductionGradeWrap f).1 w
      = (invokeTimes f n w).map (fun r => ((ProductionGradeWrap f).1, r.2)) := by
  induction n generalizing w with
  | zero => rfl
  | succ n ih =>
    simp only [callTimes, invokeTimes, Cpp.bind_apply, ProductionGradeWrap_Call_apply]
    cases Callable.call f w with
    | none => rfl
    | some r => simpa using ih r.2

/-! ## What the closures of `main` do when called -/

theorem call_PrintLambda (text : String) (w : World) :
    Callable.call (PrintLambda.intro : PrintLambda text) w
      = some ((), ⟨w.out ++ text ++ "\n", w.heap⟩) := rfl

theorem call_SharedLambda (text : String) (a : Addr) (v : Int) (w : World)
    (h : w.heap[a]? = some v) :
    Callable.call (⟨⟨some a⟩⟩ : SharedLambda text) w
      = some ((), ⟨w.out ++ text ++ toString v ++ "\n", w.heap⟩) := by
  simp [Callable.call, SharedPtr.deref, load, cout, endl, h]

theorem call_UniqueLambda (text : String) (a : Addr) (v : Int) (w : World)
    (h : w.heap[a]? = some v) :
    Callable.call (⟨⟨some a⟩⟩ : UniqueLambda text) w
      = some ((), ⟨w.out ++ text ++ toString v ++ "\n", w.heap⟩) := by
  simp [Callable.call, UniquePtr.deref, load, cout, endl, h]

theorem make_unique_apply (v : Int) (w : World) :
    make_unique v w = some (⟨some w.heap.length⟩, ⟨w.out, w.heap ++ [v]⟩) := rfl

theorem make_shared_apply (v : Int) (w : World) :
    make_shared v w = some (⟨some w.heap.length⟩, ⟨w.out, w.heap ++ [v]⟩) := rfl

/-! ## The blocks of `main` -/

theorem plainBlock_apply (textA textB : String) (w : World) :
    plainBlock textA textB w
      = some ((), ⟨w.out ++ textA ++ "\n" ++ textB ++ "\n", w.heap⟩) := rfl

theorem sharedBlock_apply (text1 text2 : String) (v : Int) (w : World) :
    sharedBlock text1 text2 v w
      = some ((), ⟨w.out ++ text1 ++ toString v ++ "\n" ++ text2 ++ toString v ++ "\n",
          w.heap ++ [v]⟩) := by
  have h : (⟨w.out, w.heap ++ [v]⟩ : World).heap[w.heap.length]? = some v := by simp
  simp only [sharedBlock, Cpp.bind_apply, make_shared_apply, KeepsLambdaByCopy.Call,
    KeepsLambdaByCopy.ctor, StdFunction.ofCallable, StdFunction.invoke]
  rw [call_SharedLambda text1 _ v _ h]
  exact call_SharedLambda text2 _ v _ (by simp)

theorem uniqueWrapBlock_apply (text : String) (v : Int) (w : World) :
    uniqueWrapBlock text v w
      = some ((), ⟨w.out ++ text ++ toString v ++ "\n" ++ text ++ toString v ++ "\n",
          w.heap ++ [v]⟩) := by
  have h : (⟨w.out, w.heap ++ [v]⟩ : World).heap[w.heap.length]? = some v := by simp
  simp only [uniqueWrapBlock, Cpp.bind_apply, make_unique_apply, UniquePtr.move, Wrap,
    KeepsGenericFunctionByMove.ctor, KeepsGenericFunctionByMove.Call]
  rw [call_UniqueLambda text _ v _ h]
  exact call_UniqueLambda text _ v _ (by simp)

theorem uniqueProductionBlock_apply (text : String) (v : Int) (w : World) :
    uniqueProductionBlock text v w
      = some ((), ⟨w.out ++ text ++ toString v ++ "\n", w.heap ++ [v]⟩) := by
  have h : (⟨w.out, w.heap ++ [v]⟩ : World).heap[w.heap.length]? = some v := by simp
  simp only [uniqueProductionBlock, Cpp.bind_apply, make_unique_apply, UniquePtr.move,
    Cpp.stmt, ProductionGradeWrap_Call_apply]
  rw [call_UniqueLambda text _ v _ h]
  rfl

theorem main_apply (w : World) :
    main w = some (0, ⟨w.out ++ "A\nB\nC=1\nD=1\nE=2\nF=2\nG=3\nG=3\nH=4\n",
      w.heap ++ [1, 2, 3, 4]⟩) := by
  simp only [main, Cpp.bind_apply, plainBlock_apply, sharedBlock_apply, uniqueWrapBlock_apply,
    uniqueProductionBlock_apply, Cpp.pure_apply]
  simp only [String.append_assoc, List.append_assoc, List.singleton_append]
  rfl

/-! ## Properties of the production-grade box -/

/-- C1: for every callable `f` and every world, one `Call()` on
`ProductionGradeWrap(f)` leaves exactly the world that one direct `f()` leaves
(the same output, the same objects, undefined exactly when `f()` is): the box
adds nothing of its own and drops nothing. -/
theorem ProductionGradeWrap_Call_effect {F : Type} [Callable F] (f : F) (w : World) :
    (ProductionGradeWrap f).1.Call.effect w = (Callable.call f).effect w := by
  unfold Cpp.effect
  rw [ProductionGradeWrap_Call_apply]
  cases Callable.call f w <;> rfl

/-- C2: for every callable `f` and every `n`, `n` successive `Call()`s on the
one box `ProductionGradeWrap(f)` leave the world that `n` successive direct
calls `f()` leave; zero calls leave the world as it is; and for a lambda that
prints a line, the output grows by exactly `n` copies of that line. -/
theorem callTimes_effect {F : Type} [Callable F] (f : F) (n : Nat) (w : World) (text : String) :
    (callTimes n (ProductionGradeWrap f).1).effect w = (invokeTimes f n).effect w
    ∧ (callTimes 0 (ProductionGradeWrap f).1).effect w = some w
    ∧ (callTimes n (ProductionGradeWrap (PrintLambda.intro : PrintLambda text)).1).effect w
        = some ⟨w.out ++ repeatText (text ++ "\n") n, w.heap⟩ := by
  refine ⟨?_, rfl, ?_⟩
  · unfold Cpp.effect
    rw [callTimes_apply]
    cases invokeTimes f n w <;> rfl
  · unfold Cpp.effect
    rw [callTimes_apply]
    have key : ∀ (k : Nat) (w : World),
        invokeTimes (PrintLambda.intro : PrintLambda text) k w
          = some ((), ⟨w.out ++ repeatText (text ++ "\n") k, w.heap⟩) := by
      intro k
      induction k with
      | zero => intro w; simp [invokeTimes, repeatText]
      | succ k ih =>
        intro w
        simp only [invokeTimes, Cpp.bind_apply, call_PrintLambda, ih, repeatText,
          String.append_assoc]
    rw [key]
    rfl

/-- C5: a `Call()` hands back the very box it was made on, whatever the world
and whatever the stored callable does; in particular the box made by
`ProductionGradeWrap(f)` stores `f` and still stores `f` after the call. -/
theorem Call_keeps_box {F : Type} [Callable F] (f : F) (b : ProductionGradeFunction)
    (w : World) :
    b.Call w = (b.Call.effect w).map (fun w' => (b, w'))
    ∧ (ProductionGradeWrap f).1.f_.impl.f_ = f
    ∧ (ProductionGradeWrap f).1.Call w
        = ((Callable.call f).effect w).map
            (fun w' => (⟨⟨F, inferInstance, ⟨f⟩⟩⟩, w')) := by
  refine ⟨?_, rfl, ?_⟩
  · unfold Cpp.effect
    rw [ProductionGradeFunction.Call_apply]
    cases @Callable.call b.f_.F b.f_.vtable b.f_.impl.f_ w <;> rfl
  · unfold Cpp.effect
    rw [ProductionGradeWrap_Call_apply]
    cases Callable.call f w <;> rfl

/-- C4: boxes made by `ProductionGradeWrap` from callables of any two types
`F` and `G` have the one type `ProductionGradeFunction`: they sit in one list,
and calling each element runs its own callable.  The result type of `Wrap`
depends on `F`: if it is the same for `F` and `G` then `F` and `G` are in
bijection, so it differs for a capture-less lambda and one that captures a
`std::unique_ptr`. -/
theorem ProductionGradeFunction_uniform {F G : Type} [Callable F] [Callable G] (f : F) (g : G)
    (w : World) :
    List.map (fun b : ProductionGradeFunction => b.Call.effect w)
        [(ProductionGradeWrap f).1, (ProductionGradeWrap g).1]
      = [(Callable.call f).effect w, (Callable.call g).effect w]
    ∧ (KeepsGenericFunctionByMove F = KeepsGenericFunctionByMove G → Nonempty (F ≃ G))
    ∧ KeepsGenericFunctionByMove (PrintLambda "A")
        ≠ KeepsGenericFunctionByMove (UniqueLambda "G=") := by
  have box_equiv : ∀ (X : Type), KeepsGenericFunctionByMove X ≃ X := fun X =>
    ⟨fun t => t.f_, fun x => ⟨x⟩, fun _ => rfl, fun _ => rfl⟩
  have inj : ∀ (X Y : Type),
      KeepsGenericFunctionByMove X = KeepsGenericFunctionByMove Y → Nonempty (X ≃ Y) :=
    fun X Y h => ⟨((box_equiv X).symm.trans (Equiv.cast h)).trans (box_equiv Y)⟩
  refine ⟨?_, inj F G, ?_⟩
  · simp only [List.map, ProductionGradeWrap_Call_effect]
  · intro h
    obtain ⟨e⟩ := inj _ _ h
    have h1 : e.symm ⟨⟨none⟩⟩ = e.symm ⟨⟨some 0⟩⟩ := rfl
    have h2 := e.symm.injective h1
    simp at h2

/-! ## Ownership -/

/-- On the path `main` takes, where the closure reaches the wrap as an rvalue:
in both `std::unique_ptr` blocks, for every text, value and starting world, the
block runs, and at every program point (closure built, called, wrapped, box
called) the `int` object is reached from exactly one variable and is the only
object created.  From the wrap on, the source closure holds nothing and the box
holds the object; the source is then null, so calling it is undefined.  The
snapshots do not change what the blocks do. -/
theorem rvalue_wrap_single_owner (text : String) (v : Int) (w : World) :
    (∃ tr w', uniqueWrapTrace text v w = some (tr, w')
        ∧ uniqueWrapBlock text v w = some ((), w')
        ∧ tr.length = 5
        ∧ (∀ o ∈ tr, o.count w.heap.length = 1 ∧ o.heap = w.heap ++ [v])
        ∧ (∀ o ∈ tr.drop 3, o.u = [] ∧ o.f = [] ∧ o.box = [w.heap.length]))
    ∧ (∃ tr w', uniqueProductionTrace text v w = some (tr, w')
        ∧ uniqueProductionBlock text v w = some ((), w')
        ∧ tr.length = 4
        ∧ (∀ o ∈ tr, o.count w.heap.length = 1 ∧ o.heap = w.heap ++ [v])
        ∧ (∀ o ∈ tr.drop 2, o.u = [] ∧ o.f = [] ∧ o.box = [w.heap.length]))
    ∧ (∀ (p : UniquePtr) (w1 : World),
        (Wrap (⟨p⟩ : UniqueLambda text)).2 = ⟨⟨none⟩⟩
        ∧ (ProductionGradeWrap (⟨p⟩ : UniqueLambda text)).2 = ⟨⟨none⟩⟩
        ∧ Callable.call (Wrap (⟨p⟩ : UniqueLambda text)).2 w1 = none
        ∧ Callable.call (ProductionGradeWrap (⟨p⟩ : UniqueLambda text)).2 w1 = none) := by
  have h : (⟨w.out, w.heap ++ [v]⟩ : World).heap[w.heap.length]? = some v := by simp
  refine ⟨?_, ?_, fun p w1 => ⟨rfl, rfl, rfl, rfl⟩⟩
  · refine ⟨[⟨[w.heap.length], [], [], w.heap ++ [v]⟩, ⟨[], [w.heap.length], [], w.heap ++ [v]⟩,
        ⟨[], [w.heap.length], [], w.heap ++ [v]⟩, ⟨[], [], [w.heap.length], w.heap ++ [v]⟩,
        ⟨[], [], [w.heap.length], w.heap ++ [v]⟩], _, ?_, uniqueWrapBlock_apply text v w, rfl,
        ?_, ?_⟩
    · simp only [uniqueWrapTrace, Cpp.bind_apply, make_unique_apply, UniquePtr.move, Wrap,
        KeepsGenericFunctionByMove.ctor, KeepsGenericFunctionByMove.Call, observe,
        Cpp.pure_apply]
      rw [call_UniqueLambda text _ v _ h]
      dsimp only
      rw [call_UniqueLambda text _ v _ (by simp)]
      rfl
    · intro o ho
      simp only [List.mem_cons, List.mem_singleton, List.not_mem_nil, or_false] at ho
      rcases ho with rfl | rfl | rfl | rfl | rfl <;> simp [Owners.count]
    · intro o ho
      simp only [List.drop, List.mem_cons, List.mem_singleton, List.not_mem_nil, or_false] at ho
      rcases ho with rfl | rfl <;> simp
  · refine ⟨[⟨[w.heap.length], [], [], w.heap ++ [v]⟩, ⟨[], [w.heap.length], [], w.heap ++ [v]⟩,
        ⟨[], [], [w.heap.length], w.heap ++ [v]⟩, ⟨[], [], [w.heap.length], w.heap ++ [v]⟩], _,
        ?_, uniqueProductionBlock_apply text v w, rfl, ?_, ?_⟩
    · simp only [uniqueProductionTrace, Cpp.bind_apply, make_unique_apply, UniquePtr.move,
        observe, Cpp.pure_apply, ProductionGradeWrap_Call_apply]
      rw [call_UniqueLambda text _ v _ h]
      rfl
    · intro o ho
      simp only [List.mem_cons, List.mem_singleton, List.not_mem_nil, or_false] at ho
      rcases ho with rfl | rfl | rfl | rfl <;> simp [Owners.count]
    · intro o ho
      simp only [List.drop, List.mem_cons, List.mem_singleton, List.not_mem_nil, or_false] at ho
      rcases ho with rfl | rfl <;> simp

/-- C3: what the code does when the closure owning the `std::unique_ptr` is a
`const` lvalue (`auto const f = ...; Wrap(f)` or `ProductionGradeWrap(f)`), for
every text, value and starting world.  `F` is `L const&`, nothing is moved:
the wrap returns the source as it was; from the wrap on, the `int` object is
reached both from the source closure and from the box, two holders instead of
one; and `t.Call(); f();` both succeed and print the line twice.  So the
source still holds the resource and the box is not the only way to it. -/
theorem const_lvalue_wrap_shares_resource (text : String) (v : Int) (w : World) :
    (∃ tr w', constLvalueWrapTrace text v w = some (tr, w')
        ∧ w' = ⟨w.out ++ text ++ toString v ++ "\n" ++ text ++ toString v ++ "\n",
            w.heap ++ [v]⟩
        ∧ tr.length = 4
        ∧ (∀ o ∈ tr.drop 2, o.u = [] ∧ o.f = [w.heap.length] ∧ o.box = [w.heap.length]
            ∧ o.count w.heap.length = 2))
    ∧ (∃ tr w', constLvalueProductionTrace text v w = some (tr, w')
        ∧ w' = ⟨w.out ++ text ++ toString v ++ "\n" ++ text ++ toString v ++ "\n",
            w.heap ++ [v]⟩
        ∧ tr.length = 4
        ∧ (∀ o ∈ tr.drop 2, o.u = [] ∧ o.f = [w.heap.length] ∧ o.box = [w.heap.length]
            ∧ o.count w.heap.length = 2))
    ∧ (∀ f : UniqueLambda text,
        (Wrap (⟨f⟩ : ConstRef (UniqueLambda text))).2.target = f
        ∧ (ProductionGradeWrap (⟨f⟩ : ConstRef (UniqueLambda text))).2.target = f
        ∧ (Wrap (⟨f⟩ : ConstRef (UniqueLambda text))).1.f_.target = f
        ∧ (ProductionGradeWrap (⟨f⟩ : ConstRef (UniqueLambda text))).1.reaches
            = Callable.reaches f) := by
  have h : (⟨w.out, w.heap ++ [v]⟩ : World).heap[w.heap.length]? = some v := by simp
  have hc := call_UniqueLambda text _ v _ h
  refine ⟨?_, ?_, fun f => ⟨rfl, rfl, rfl, rfl⟩⟩
  · refine ⟨[⟨[w.heap.length], [], [], w.heap ++ [v]⟩, ⟨[], [w.heap.length], [], w.heap ++ [v]⟩,
        ⟨[], [w.heap.length], [w.heap.length], w.heap ++ [v]⟩,
        ⟨[], [w.heap.length], [w.heap.length], w.heap ++ [v]⟩], _, ?_, rfl, rfl, ?_⟩
    · simp only [constLvalueWrapTrace, Cpp.bind_apply, make_unique_apply, UniquePtr.move, Wrap,
        KeepsGenericFunctionByMove.ctor, KeepsGenericFunctionByMove.Call, observe,
        Cpp.pure_apply]
      have hr : Callable.call (⟨⟨⟨some w.heap.length⟩⟩⟩ : ConstRef (UniqueLambda text))
          = Callable.call (⟨⟨some w.heap.length⟩⟩ : UniqueLambda text) := rfl
      have hs : ∀ x : ConstRef (UniqueLambda text),
          (if Callable.isReference (F := ConstRef (UniqueLambda text)) = true then x
            else Callable.movedFrom x) = x := fun _ => rfl
      rw [hr, hc]
      simp only [hs]
      rw [call_UniqueLambda text _ v _ (by simp)]
      rfl
    · intro o ho
      simp only [List.drop, List.mem_cons, List.mem_singleton, List.not_mem_nil, or_false] at ho
      rcases ho with rfl | rfl <;> simp [Owners.count]
  · refine ⟨[⟨[w.heap.length], [], [], w.heap ++ [v]⟩, ⟨[], [w.heap.length], [], w.heap ++ [v]⟩,
        ⟨[], [w.heap.length], [w.heap.length], w.heap ++ [v]⟩,
        ⟨[], [w.heap.length], [w.heap.length], w.heap ++ [v]⟩], _, ?_, rfl, rfl, ?_⟩
    · simp only [constLvalueProductionTrace, Cpp.bind_apply, make_unique_apply, UniquePtr.move,
        observe, Cpp.pure_apply, ProductionGradeWrap_Call_apply]
      have hr : Callable.call (⟨⟨⟨some w.heap.length⟩⟩⟩ : ConstRef (UniqueLambda text))
          = Callable.call (⟨⟨some w.heap.length⟩⟩ : UniqueLambda text) := rfl
      have hs : ∀ x : ConstRef (UniqueLambda text), (ProductionGradeWrap x).2 = x :=
        fun _ => rfl
      rw [hr, hc]
      simp only [hs, Option.map]
      rw [call_UniqueLambda text _ v _ (by simp)]
      rfl
    · intro o ho
      simp only [List.drop, List.mem_cons, List.mem_singleton, List.not_mem_nil, or_false] at ho
      rcases ho with rfl | rfl <;> simp [Owners.count]

/-! ## The scenarios of `main` -/

/-- C6: for every text and value `v`, when the `int` object at `a` holds `v`,
the closure that owns it through a `std::unique_ptr` and prints the text and
the value, once wrapped (by `Wrap` or by `ProductionGradeWrap`) and called
through the box, appends the text, `v` and a newline to the output and changes
nothing else; the block of `main` that builds such a closure from
`make_unique(v)` and calls it through `ProductionGradeWrap` prints that line. -/
theorem unique_capture_prints (text : String) (v : Int) (a : Addr) (w : World)
    (h : w.heap[a]? = some v) :
    (Wrap (⟨⟨some a⟩⟩ : UniqueLambda text)).1.Call.effect w
      = some ⟨w.out ++ text ++ toString v ++ "\n", w.heap⟩
    ∧ (ProductionGradeWrap (⟨⟨some a⟩⟩ : UniqueLambda text)).1.Call.effect w
      = some ⟨w.out ++ text ++ toString v ++ "\n", w.heap⟩
    ∧ (uniqueProductionBlock text v).effect w
      = some ⟨w.out ++ text ++ toString v ++ "\n", w.heap ++ [v]⟩ := by
  refine ⟨?_, ?_, ?_⟩
  · simp only [Cpp.effect, Wrap, KeepsGenericFunctionByMove.ctor,
      KeepsGenericFunctionByMove.Call, call_UniqueLambda text a v w h]
    rfl
  · rw [ProductionGradeWrap_Call_effect]
    simp only [Cpp.effect, call_UniqueLambda text a v w h]
    rfl
  · simp only [Cpp.effect, uniqueProductionBlock_apply]
    rfl

/-- The scenario of `main`: value `3`, text `G=`, and the value `4` of the last block. -/
theorem unique_capture_prints_witness :
    (⟨"", [3]⟩ : World).heap[0]? = some 3
    ∧ (Wrap (⟨⟨some 0⟩⟩ : UniqueLambda "G=")).1.Call.effect ⟨"", [3]⟩ = some ⟨"G=3\n", [3]⟩
    ∧ (ProductionGradeWrap (⟨⟨some 0⟩⟩ : UniqueLambda "G=")).1.Call.effect ⟨"", [3]⟩
        = some ⟨"G=3\n", [3]⟩
    ∧ (uniqueProductionBlock "G=" 3).effect ⟨"", [3]⟩ = some ⟨"G=3\n", [3, 3]⟩ :=
  ⟨by decide, unique_capture_prints "G=" 3 0 ⟨"", [3]⟩ (by decide)⟩

/-- C7: for every value `v` and texts, the block of `main` that keeps two
closures over one shared `int` prints the first text with `v`, then the second
text with `v`.  With `s1` the pointer `make_shared(v)` returns, each of the two
boxes over a closure capturing `s1` prints its text with `v` and leaves the
objects as they were, whatever was written before; so the second box observes
the same value whether or not the first box was called. -/
theorem shared_capture_same_value (text1 text2 : String) (v : Int) (w : World) :
    (sharedBlock text1 text2 v).effect w
      = some ⟨w.out ++ text1 ++ toString v ++ "\n" ++ text2 ++ toString v ++ "\n",
          w.heap ++ [v]⟩
    ∧ ∃ s1 w1, make_shared v w = some (s1, w1)
        ∧ ∀ o : String,
          (KeepsLambdaByCopy.ctor
              (StdFunction.ofCallable (⟨s1⟩ : SharedLambda text1))).Call.effect ⟨o, w1.heap⟩
            = some ⟨o ++ text1 ++ toString v ++ "\n", w1.heap⟩
          ∧ (KeepsLambdaByCopy.ctor
              (StdFunction.ofCallable (⟨s1⟩ : SharedLambda text2))).Call.effect ⟨o, w1.heap⟩
            = some ⟨o ++ text2 ++ toString v ++ "\n", w1.heap⟩ := by
  refine ⟨?_, _, _, make_shared_apply v w, fun o => ?_⟩
  · simp only [Cpp.effect, sharedBlock_apply]
    rfl
  · have h : (⟨o, w.heap ++ [v]⟩ : World).heap[w.heap.length]? = some v := by simp
    simp only [Cpp.effect, KeepsLambdaByCopy.Call, KeepsLambdaByCopy.ctor,
      StdFunction.ofCallable, StdFunction.invoke, call_SharedLambda _ _ v _ h]
    exact ⟨rfl, rfl⟩

/-- C8: started with nothing printed and no objects, `main` returns `0` and
has printed exactly the lines A, B, C=1, D=1, E=2, F=2, G=3, G=3, H=4, each
followed by a newline, in this order; the letter A occurs once in the output.
From any starting world it returns `0` and appends that same text. -/
theorem main_output (w : World) :
    main ⟨"", []⟩ = some (0, ⟨"A\nB\nC=1\nD=1\nE=2\nF=2\nG=3\nG=3\nH=4\n", [1, 2, 3, 4]⟩)
    ∧ "A\nB\nC=1\nD=1\nE=2\nF=2\nG=3\nG=3\nH=4\n"
        = String.join (List.map (fun l => l ++ "\n")
            ["A", "B", "C=1", "D=1", "E=2", "F=2", "G=3", "G=3", "H=4"])
    ∧ (main ⟨"", []⟩).map (fun r => r.2.out.toList.count 'A') = some 1
    ∧ main w = some (0, ⟨w.out ++ "A\nB\nC=1\nD=1\nE=2\nF=2\nG=3\nG=3\nH=4\n",
        w.heap ++ [1, 2, 3, 4]⟩) :=
  ⟨by rfl, by decide, by decide, main_apply w⟩

/-! ## The four wrappers side by side -/

/-- C9: for every callable `f` of a copyable type and every world, one
`Call()` on the box made by each of `KeepsLambdaByCopy`, `KeepsLambdaByMove`,
`Wrap` and `ProductionGradeWrap` leaves the world that one `f()` leaves. -/
theorem wrappers_equivalent {F : Type} [Callable F] [CopyConstructible F] (f : F) (w : World) :
    (KeepsLambdaByCopy.ctor (StdFunction.ofCallable f)).Call.effect w = (Callable.call f).effect w
    ∧ (KeepsLambdaByMove.ctor (StdFunction.ofCallable f)).Call.effect w
        = (Callable.call f).effect w
    ∧ (Wrap f).1.Call.effect w = (Callable.call f).effect w
    ∧ (ProductionGradeWrap f).1.Call.effect w = (Callable.call f).effect w :=
  ⟨rfl, rfl, rfl, ProductionGradeWrap_Call_effect f w⟩

/-- C10: for all callables `f` and `g`, with each of the four wrappers: boxing
`f`, then boxing `g`, then calling the `g` box and then the `f` box leaves the
world that `g()` followed by `f()` leaves; boxing in the other order gives the
same; and when only the `g` box is called the world is the one `g()` leaves,
so building a box runs nothing. -/
theorem wrapping_does_not_invoke {F G : Type} [Callable F] [CopyConstructible F] [Callable G]
    [CopyConstructible G] (f : F) (g : G) (w : World) :
    (do let t1 := KeepsLambdaByCopy.ctor (StdFunction.ofCallable f)
        let t2 := KeepsLambdaByCopy.ctor (StdFunction.ofCallable g)
        t2.Call
        t1.Call : Cpp Unit).effect w = (invokeInOrder g f).effect w
    ∧ (do let t2 := KeepsLambdaByCopy.ctor (StdFunction.ofCallable g)
          let t1 := KeepsLambdaByCopy.ctor (StdFunction.ofCallable f)
          t2.Call
          t1.Call : Cpp Unit).effect w = (invokeInOrder g f).effect w
    ∧ (do let _t1 := KeepsLambdaByCopy.ctor (StdFunction.ofCallable f)
          let t2 := KeepsLambdaByCopy.ctor (StdFunction.ofCallable g)
          t2.Call : Cpp Unit).effect w = (Callable.call g).effect w
    ∧ (do let t1 := KeepsLambdaByMove.ctor (StdFunction.ofCallable f)
          let t2 := KeepsLambdaByMove.ctor (StdFunction.ofCallable g)
          t2.Call
          t1.Call : Cpp Unit).effect w = (invokeInOrder g f).effect w
    ∧ (do let t2 := KeepsLambdaByMove.ctor (StdFunction.ofCallable g)
          let t1 := KeepsLambdaByMove.ctor (StdFunction.ofCallable f)
          t2.Call
          t1.Call : Cpp Unit).effect w = (invokeInOrder g f).effect w
    ∧ (do let _t1 := KeepsLambdaByMove.ctor (StdFunction.ofCallable f)
          let t2 := KeepsLambdaByMove.ctor (StdFunction.ofCallable g)
          t2.Call : Cpp Unit).effect w = (Callable.call g).effect w
    ∧ (do let (t1, _) := Wrap f
          let (t2, _) := Wrap g
          t2.Call
          t1.Call : Cpp Unit).effect w = (invokeInOrder g f).effect w
    ∧ (do let (t2, _) := Wrap g
          let (t1, _) := Wrap f
          t2.Call
          t1.Call : Cpp Unit).effect w = (invokeInOrder g f).effect w
    ∧ (do let (_t1, _) := Wrap f
          let (t2, _) := Wrap g
          t2.Call : Cpp Unit).effect w = (Callable.call g).effect w
    ∧ (do let (t1, _) := ProductionGradeWrap f
          let (t2, _) := ProductionGradeWrap g
          let _ ← t2.Call
          t1.Call : Cpp ProductionGradeFunction).effect w = (invokeInOrder g f).effect w
    ∧ (do let (t2, _) := ProductionGradeWrap g
          let (t1, _) := ProductionGradeWrap f
          let _ ← t2.Call
          t1.Call : Cpp ProductionGradeFunction).effect w = (invokeInOrder g f).effect w
    ∧ (do let (_t1, _) := ProductionGradeWrap f
          let (t2, _) := ProductionGradeWrap g
          t2.Call : Cpp ProductionGradeFunction).effect w = (Callable.call g).effect w := by
  have hp : ((ProductionGradeWrap g).1.Call >>= fun _ => (ProductionGradeWrap f).1.Call).effect w
      = (invokeInOrder g f).effect w := by
    simp only [invokeInOrder, Cpp.effect_bind, ProductionGradeWrap_Call_apply]
    cases Callable.call g w with
    | none => rfl
    | some r => exact ProductionGradeWrap_Call_effect f r.2
  exact ⟨rfl, rfl, rfl, rfl, rfl, rfl, rfl, rfl, rfl, hp, hp,
    ProductionGradeWrap_Call_effect g w⟩

end MovableLambda
